import Mathlib

/-!
Verification development for the proxc CSP runtime (fiber scheduler,
rendezvous channels, Alt guarded choice).

The definitions below are shallow embeddings of the C++ sources:
pure logic becomes Lean functions, stateful code becomes explicit state
passing, machine time points become WithTop Nat (with the top element
standing for TimePointT::max()), and operations whose C++ counterpart
can dereference a null pointer return Option, with none marking
undefined behaviour.
-/

namespace Proxc

/-- OpResult, the user visible result of a channel operation
(include/proxc/channel/op_result.hpp as described by the spec and used
by channel/tx.hpp). -/
inductive OpResult
  | Ok
  | Closed
  | Timeout
deriving DecidableEq

/-- State of the single rendezvous slot of a channel, spec section 4.4:
state S of ChannelImpl ranges over None, TxWaiting, RxWaiting,
AltTxOffered, AltRxOffered (the Closed case is the separate closed flag). -/
inductive SlotState
  | slotNone
  | txWaiting
  | rxWaiting
  | altTxOffered
  | altRxOffered
deriving DecidableEq

/-- The shared channel object behind the two handles: a closed flag and
the rendezvous slot. -/
structure ChanState where
  closed : Bool
  slot : SlotState
deriving DecidableEq

/-- Heap of channel objects; a handle's shared_ptr is an index into it. -/
abbrev Heap := List ChanState

/-- ChannelImpl::close sets the closed flag (the channel object itself,
behind the handles). -/
def Heap.closeChan (h : Heap) (i : Nat) : Heap :=
  match h.get? i with
  | some c => h.set i { c with closed := true }
  | none => h

/-- Tx<T> handle: holds the shared_ptr chan_, which is null (none) for a
default constructed, moved-from or closed handle. -/
structure TxHandle where
  chan : Option Nat
deriving DecidableEq

/-- Rx<T> handle, same layout as Tx. -/
structure RxHandle where
  chan : Option Nat
deriving DecidableEq

/-- Tx::close: if chan_ is non-null, close the channel and reset chan_
to null; otherwise do nothing. Returns the updated heap and handle. -/
def TxHandle.close (tx : TxHandle) (h : Heap) : Heap × TxHandle :=
  match tx.chan with
  | some i => (h.closeChan i, ⟨none⟩)
  | none => (h, tx)

/-- Rx::close, identical to Tx::close. -/
def RxHandle.close (rx : RxHandle) (h : Heap) : Heap × RxHandle :=
  match rx.chan with
  | some i => (h.closeChan i, ⟨none⟩)
  | none => (h, rx)

/-- Tx::is_closed does chan_->is_closed() with no null check: when chan_
is null the dereference is undefined behaviour, modeled as none. -/
def TxHandle.is_closed (tx : TxHandle) (h : Heap) : Option Bool :=
  match tx.chan with
  | none => none
  | some i => (h.get? i).map ChanState.closed

/-- Rx::is_closed, identical to Tx::is_closed. -/
def RxHandle.is_closed (rx : RxHandle) (h : Heap) : Option Bool :=
  match rx.chan with
  | none => none
  | some i => (h.get? i).map ChanState.closed

/-- Modelled from the spec: ChannelImpl<T>::send is not under src
(channel/sync.hpp is missing); spec section 4.4, Send(x):
1. if closed, return Closed; 2. S = RxWaiting: transfer the item and
return Ok; S = None (or an Alt offer): install the own offer and
suspend; the outcome on wake, Ok on a completed rendezvous or Closed
when woken by close, is supplied by the wokenByClose oracle parameter.
A dangling channel index is none. -/
def ChannelImpl.send (h : Heap) (i : Nat) (wokenByClose : Bool) : Option OpResult :=
  match h.get? i with
  | none => none
  | some c =>
    if c.closed then some OpResult.Closed
    else match c.slot with
      | SlotState.rxWaiting => some OpResult.Ok
      | _ => if wokenByClose then some OpResult.Closed else some OpResult.Ok

/-- Modelled from the spec: ChannelImpl<T>::recv (channel/sync.hpp is
missing); symmetric to ChannelImpl.send. -/
def ChannelImpl.recv (h : Heap) (i : Nat) (wokenByClose : Bool) : Option OpResult :=
  match h.get? i with
  | none => none
  | some c =>
    if c.closed then some OpResult.Closed
    else match c.slot with
      | SlotState.txWaiting => some OpResult.Ok
      | _ => if wokenByClose then some OpResult.Closed else some OpResult.Ok

/-- Tx::send: builds a ChanEnd from the running context and calls
chan_->send(tx) with no null check; when chan_ is null (the handle was
closed) the dereference of the null shared_ptr is undefined behaviour,
modeled as none. -/
def TxHandle.send (tx : TxHandle) (h : Heap) (wokenByClose : Bool) : Option OpResult :=
  match tx.chan with
  | none => none
  | some i => ChannelImpl.send h i wokenByClose

/-- Rx::recv: calls chan_->recv(rx) with no null check, as Tx::send. -/
def RxHandle.recv (rx : RxHandle) (h : Heap) (wokenByClose : Bool) : Option OpResult :=
  match rx.chan with
  | none => none
  | some i => ChannelImpl.recv h i wokenByClose

/-!
Scheduler: sleep set, timed sleep, and the main loop (src/src/scheduler.cpp).
-/

/-- Time points: WithTop Nat, with the top element standing for
TimePointT::max(). -/
abbrev TimePoint := WithTop Nat

/-- Context::Type of a fiber (runtime/context.hpp): Main, Scheduler or
Work; Dynamic = Work can migrate, Static = Main or Scheduler cannot. -/
inductive CtxType
  | Main
  | Scheduler
  | Work
deriving DecidableEq

/-- An entry of the scheduler's sleep queue: the fiber's id, its
deadline time_point_, whether its alt_ pointer is set, and the result
its Alt::try_timeout() returns when invoked (an oracle for the Alt's
atomic race, whose implementation lives outside the scheduler). -/
structure SleepCtx where
  cid : Nat
  type : CtxType
  time_point : TimePoint
  hasAlt : Bool
  tryTimeoutOk : Bool
deriving DecidableEq

/-- Result of one Scheduler::wakeup_sleep_ pass: the entries still
linked, the expired entries that were removed (deadline reset to
TimePointT::max()), and among those the ones handed to schedule(). -/
structure WakeupResult where
  remaining : List SleepCtx
  processed : List SleepCtx
  scheduled : List SleepCtx
deriving DecidableEq

/-- Scheduler::wakeup_sleep_: walk the sleep queue from the front
(the queue is an intrusive multiset ordered by deadline); break at the
first entry with time_point_ greater than now; every earlier entry is
erased, its time_point_ reset to TimePointT::max(), and scheduled iff
its alt_ pointer is null or alt_->try_timeout() returns true. -/
def Scheduler.wakeup_sleep (now : Nat) : List SleepCtx → WakeupResult
  | [] => ⟨[], [], []⟩
  | c :: rest =>
    if (now : TimePoint) < c.time_point then
      ⟨c :: rest, [], []⟩
    else
      let c' := { c with time_point := (⊤ : TimePoint) }
      let r := Scheduler.wakeup_sleep now rest
      ⟨r.remaining, c' :: r.processed,
        if !c.hasAlt || c.tryTimeoutOk then c' :: r.scheduled else r.scheduled⟩

/-- Scheduler::sleep_until: if now is before the requested time point,
link the running context into the sleep queue with that deadline and
suspend; the boolean returned after being resumed is whether the clock
has passed the deadline (wakeNow is the clock value at resumption).
If the time point is already reached, return true immediately without
touching the sleep queue. -/
def Scheduler.sleep_until (now wakeNow : Nat) (time_point : TimePoint)
    (self : SleepCtx) (queue : List SleepCtx) : Bool × List SleepCtx :=
  if (now : TimePoint) < time_point then
    ((time_point ≤ (wakeNow : TimePoint)), queue ++ [{ self with time_point := time_point }])
  else
    (true, queue)

/-- Modelled from the spec: ChannelImpl<T>::recv_until is not under src
(channel/sync.hpp is missing); spec section 4.4, recv symmetric to
send_until: if closed, return Closed; a waiting sender present, transfer
and return Ok; otherwise install the own offer, link into the sleep set
via the scheduler (Scheduler::sleep_until above, which is under src) and
suspend; if woken by the deadline remove the offer and return Timeout,
otherwise the rendezvous completed (Ok) or the channel was closed
(Closed, per the wokenByClose oracle). -/
def ChannelImpl.recv_until (h : Heap) (i : Nat) (now wakeNow : Nat)
    (time_point : TimePoint) (self : SleepCtx) (queue : List SleepCtx)
    (wokenByClose : Bool) : Option (OpResult × List SleepCtx) :=
  match h.get? i with
  | none => none
  | some c =>
    if c.closed then some (OpResult.Closed, queue)
    else match c.slot with
      | SlotState.txWaiting => some (OpResult.Ok, queue)
      | _ =>
        let r := Scheduler.sleep_until now wakeNow time_point self queue
        if r.1 then some (OpResult.Timeout, r.2)
        else if wokenByClose then some (OpResult.Closed, r.2)
        else some (OpResult.Ok, r.2)

/-- Rx::recv_until: builds a ChanEnd from the running context and calls
chan_->recv_until(rx, time_point); null chan_ dereference is none.
Rx::recv_for computes time_point = now + duration and delegates here. -/
def RxHandle.recv_until (rx : RxHandle) (h : Heap) (now wakeNow : Nat)
    (time_point : TimePoint) (self : SleepCtx) (queue : List SleepCtx)
    (wokenByClose : Bool) : Option (OpResult × List SleepCtx) :=
  match rx.chan with
  | none => none
  | some i => ChannelImpl.recv_until h i now wakeNow time_point self queue wokenByClose

/-!
Work-stealing policy (src/src/scheduling_policy/work_stealing.cpp) and
num_cpus (include/proxc/detail/num_cpus.hpp).
-/

/-- detail::num_cpus: hardware_concurrency clamped below by 1. -/
def num_cpus (hardwareConcurrency : Nat) : Nat :=
  if hardwareConcurrency > 1 then hardwareConcurrency else 1

/-- WorkStealing::take_id: the do-while rejection loop. The C++ draws
victim ids from a uniform distribution over {0, ..., num_workers_ - 1}
and repeats while the draw equals the caller's own id_. The stream of
draws is modeled as a list; the result is the first draw different from
selfId, and none when every modeled draw was rejected - a loop that has
not returned (with a single worker it never does). -/
def WorkStealing.take_id (selfId : Nat) : List Nat → Option Nat
  | [] => none
  | d :: rest =>
    if d = selfId then WorkStealing.take_id selfId rest else some d

/-- State a WorkStealing policy instance owns: the Chase-Lev deque of
migratable fibers (deque_) and the local list of non-migratable ones
(ready_queue_). The deque orientation is modelled from the spec
(work_steal_deque.hpp is not under src): the owner pushes and pops at
the back (LIFO), thieves steal at the front (FIFO). -/
structure WSWorker where
  deque : List Nat
  ready_queue : List Nat
deriving DecidableEq

/-- Result of WorkStealing::pick_next: the fiber returned, the worker
state afterwards, and the fibers that were attached to the calling
scheduler (Scheduler::attach) before returning. -/
structure PickResult where
  picked : Option Nat
  worker : WSWorker
  attached : List Nat
deriving DecidableEq

/-- WorkStealing::pick_next: pop the own deque (LIFO end) and attach the
fiber on success; else pop the front of the local ready_queue_; else
pick a random other worker via take_id and steal from the front (FIFO
end) of its deque, attaching the stolen fiber when the steal succeeds.
victims gives each other worker's deque; the steal's removal on the
victim side happens on that worker's deque and is not part of this
worker's state. The overall result is none when take_id does not return
(its rejection loop never accepts a draw). -/
def WorkStealing.pick_next (selfId : Nat) (s : WSWorker)
    (victims : Nat → List Nat) (draws : List Nat) : Option PickResult :=
  match s.deque.getLast? with
  | some c => some ⟨some c, { s with deque := s.deque.dropLast }, [c]⟩
  | none =>
    match s.ready_queue with
    | r :: rest => some ⟨some r, { s with ready_queue := rest }, []⟩
    | [] =>
      match WorkStealing.take_id selfId draws with
      | none => none
      | some vid =>
        match (victims vid).head? with
        | some c => some ⟨some c, s, [c]⟩
        | none => some ⟨none, s, []⟩

/-!
The scheduler main loop, Scheduler::run_ (src/src/scheduler.cpp).
Each phase helper records itself in the state's trace field, so the
order in which run_ invokes the phases is part of the semantics.
-/

/-- A phase of one iteration of the Scheduler::run_ loop. -/
inductive Phase
  | cleanupTerminated
  | transitionRemote
  | wakeupSleep
  | pickNextResume
  | suspendUntil
deriving DecidableEq

/-- A fiber as the run_ loop sees it: identity and Context::Type. -/
structure RCtx where
  id : Nat
  type : CtxType
deriving DecidableEq

/-- The per-scheduler state the run_ loop touches: the exit flag, the
work queue (ids of owned Work fibers), the terminated queue, the remote
MPSC inbox, the policy state (deque_ and ready_queue_ of the
WorkStealing policy), the sleep queue, and the trace of phases run. -/
structure RunState where
  exitFlag : Bool
  work_queue : List Nat
  terminated_queue : List Nat
  remote_queue : List RCtx
  deque : List RCtx
  ready_queue : List RCtx
  sleep_queue : List SleepCtx
  trace : List Phase
deriving DecidableEq

/-- WorkStealing::enqueue on the run_ state: a Work (Dynamic) fiber is
detached from the scheduler and pushed onto the deque, where it can be
stolen; a Main or Scheduler fiber is linked to the local ready_queue_. -/
def WorkStealing.enqueue (c : RCtx) (s : RunState) : RunState :=
  if c.type = CtxType.Work then
    { s with work_queue := s.work_queue.filter (fun w => w ≠ c.id),
             deque := s.deque ++ [c] }
  else
    { s with ready_queue := s.ready_queue ++ [c] }

/-- Scheduler::schedule_local_: try_unlink the context from the sleep
queue, then hand it to the policy's enqueue. -/
def Scheduler.schedule_local (c : RCtx) (s : RunState) : RunState :=
  WorkStealing.enqueue c
    { s with sleep_queue := s.sleep_queue.filter (fun e => e.cid ≠ c.id) }

/-- Scheduler::cleanup_terminated_: pop every context off the
terminated queue and release its reference count (the freed contexts
simply leave the state). -/
def Scheduler.cleanup_terminated (s : RunState) : RunState :=
  { s with terminated_queue := [],
           trace := s.trace ++ [Phase.cleanupTerminated] }

/-- Scheduler::transition_remote_: pop each context off the remote MPSC
inbox and schedule_local_ it. -/
def Scheduler.transition_remote (s : RunState) : RunState :=
  let s' := { s with remote_queue := [],
                     trace := s.trace ++ [Phase.transitionRemote] }
  s.remote_queue.foldl (fun st c => Scheduler.schedule_local c st) s'

/-- Scheduler::wakeup_sleep_ acting on the run_ state: run the sleep
pass and schedule every woken context (the contexts in this
scheduler's sleep queue belong to it, so schedule() takes the local
path). -/
def Scheduler.wakeup_sleep_run (now : Nat) (s : RunState) : RunState :=
  let r := Scheduler.wakeup_sleep now s.sleep_queue
  let s' := { s with sleep_queue := r.remaining,
                     trace := s.trace ++ [Phase.wakeupSleep] }
  r.scheduled.foldl (fun st c => Scheduler.schedule_local ⟨c.cid, c.type⟩ st) s'

/-- WorkStealing::pick_next on the run_ state; the steal branch's
outcome is the stealResult oracle (the victim is another worker).
A fiber popped from the own deque or obtained by stealing is attached
(Scheduler::attach links it into the work queue). -/
def WorkStealing.pick_next_run (stealResult : Option RCtx) (s : RunState) :
    Option RCtx × RunState :=
  match s.deque.getLast? with
  | some c => (some c, { s with deque := s.deque.dropLast,
                                work_queue := s.work_queue ++ [c.id] })
  | none =>
    match s.ready_queue with
    | r :: rest => (some r, { s with ready_queue := rest })
    | [] =>
      match stealResult with
      | some c => (some c, { s with work_queue := s.work_queue ++ [c.id] })
      | none => (none, s)

/-- One iteration of the for(;;) loop in Scheduler::run_: if the exit
flag is set and the work queue is empty, the loop breaks (none);
otherwise run cleanup_terminated_, then transition_remote_, then
wakeup_sleep_, then ask the policy for the next fiber: if one exists,
re-enqueue the scheduler context and resume the fiber, else compute the
earliest sleep deadline and park in policy suspend_until. The picked
fiber (control transfers to it) is returned with the new state. -/
def Scheduler.run_iteration (stealResult : Option RCtx) (now : Nat)
    (s : RunState) : Option (RunState × Option RCtx) :=
  if s.exitFlag ∧ s.work_queue = [] then none
  else
    match WorkStealing.pick_next_run stealResult
        (Scheduler.wakeup_sleep_run now
          (Scheduler.transition_remote (Scheduler.cleanup_terminated s))) with
    | (some c, s4) =>
        some ({ s4 with trace := s4.trace ++ [Phase.pickNextResume] }, some c)
    | (none, s4) =>
        some ({ s4 with trace := s4.trace ++ [Phase.suspendUntil] }, none)

/-!
Alt builder (include/proxc/alt.hpp): the per-channel audit map updated
by send_impl / recv_impl, and the timeout fold of timeout_impl.
-/

/-- ChoiceAudit::State: the direction recorded for a channel id, or
Clash when choices of both directions were registered. -/
inductive AuditState
  | Tx
  | Rx
  | Clash
deriving DecidableEq

/-- Alt::ChoiceAudit: recorded direction plus the choices registered
under this channel id (vec_), as choice ids. -/
structure ChoiceAudit where
  state : AuditState
  vec : List Nat
deriving DecidableEq

/-- A Choice as stored in Alt::choices_: its identity, direction, and
the channel id it refers to. -/
structure ChoiceRec where
  cid : Nat
  isSend : Bool
  chId : Nat
deriving DecidableEq

/-- The Alt builder state touched by send_impl / recv_impl: the
std::map ch_audit_ (an association list keyed by channel id), the
choices_ vector, and a counter supplying fresh choice identities
(standing for the addresses of the heap-allocated Choice objects). -/
structure AltBuild where
  ch_audit : List (Nat × ChoiceAudit)
  choices : List ChoiceRec
  nextId : Nat
deriving DecidableEq

/-- ch_audit_.find(id): lookup in the association list. -/
def auditFind (m : List (Nat × ChoiceAudit)) (k : Nat) : Option ChoiceAudit :=
  match m with
  | [] => none
  | p :: rest => if p.1 = k then some p.2 else auditFind rest k

/-- ch_audit_[id] = v: insert or overwrite in the association list. -/
def auditSet (m : List (Nat × ChoiceAudit)) (k : Nat) (v : ChoiceAudit) :
    List (Nat × ChoiceAudit) :=
  match m with
  | [] => [(k, v)]
  | p :: rest => if p.1 = k then (k, v) :: rest else p :: auditSet rest k v

/-- Alt::send_impl: nothing happens when the channel is closed.
Otherwise, when the channel id is unknown, record a Tx audit entry with
the new choice and append the choice; when it is known with state Tx,
append the new choice under the existing entry and to choices_; when it
is known with state Rx or Clash, mark the entry Clash and discard the
conflicting choice. -/
def Alt.send_impl (closed : Bool) (chId : Nat) (s : AltBuild) : AltBuild :=
  if closed then s else
  match auditFind s.ch_audit chId with
  | none =>
    { ch_audit := auditSet s.ch_audit chId ⟨AuditState.Tx, [s.nextId]⟩,
      choices := s.choices ++ [⟨s.nextId, true, chId⟩],
      nextId := s.nextId + 1 }
  | some a =>
    if a.state = AuditState.Tx then
      { ch_audit := auditSet s.ch_audit chId ⟨a.state, a.vec ++ [s.nextId]⟩,
        choices := s.choices ++ [⟨s.nextId, true, chId⟩],
        nextId := s.nextId + 1 }
    else
      { s with ch_audit := auditSet s.ch_audit chId ⟨AuditState.Clash, a.vec⟩ }

/-- Alt::recv_impl, the mirror image of send_impl. -/
def Alt.recv_impl (closed : Bool) (chId : Nat) (s : AltBuild) : AltBuild :=
  if closed then s else
  match auditFind s.ch_audit chId with
  | none =>
    { ch_audit := auditSet s.ch_audit chId ⟨AuditState.Rx, [s.nextId]⟩,
      choices := s.choices ++ [⟨s.nextId, false, chId⟩],
      nextId := s.nextId + 1 }
  | some a =>
    if a.state = AuditState.Rx then
      { ch_audit := auditSet s.ch_audit chId ⟨a.state, a.vec ++ [s.nextId]⟩,
        choices := s.choices ++ [⟨s.nextId, false, chId⟩],
        nextId := s.nextId + 1 }
    else
      { s with ch_audit := auditSet s.ch_audit chId ⟨AuditState.Clash, a.vec⟩ }

/-- The audit state recorded for a channel id. -/
def Alt.auditStateOf (s : AltBuild) (chId : Nat) : Option AuditState :=
  (auditFind s.ch_audit chId).map ChoiceAudit.state

/-- Modelled from the spec: the selection phase of Alt::select (alt.cpp
is not under src). Spec section 4.5, Phase 1: for each choice whose
channel id is not marked Clash, alt_enter is called, registering the
offer; a channel id marked Clash is excluded from selection. This is
the set of choices entering selection. -/
def Alt.enterSet (s : AltBuild) : List ChoiceRec :=
  s.choices.filter (fun c => decide (Alt.auditStateOf s c.chId ≠ some AuditState.Clash))

/-- Timers (include/proxc/timer.hpp): Egg holds a duration and expires
that long after its creation or reset; Repeat holds the next expiry
time point and a period; Date holds an absolute time point. -/
inductive Timer
  | Egg (duration : Nat)
  | Repeat (time_point : TimePoint) (duration : Nat)
  | Date (time_point : TimePoint)
deriving DecidableEq

/-- The time point a copy of the timer holds after reset(), as read by
Alt::timeout_impl: Egg::reset sets now + duration; Repeat::reset and
Date::reset do nothing, leaving the stored time point. -/
def Timer.resetGet (now : Nat) : Timer → TimePoint
  | Timer.Egg d => ((now + d : Nat) : TimePoint)
  | Timer.Repeat tp _ => tp
  | Timer.Date tp => tp

/-- The Alt fields written by timeout_impl: time_point_ (initial value
TimePointT::max(), the top element) and timer_fn_ (initially the empty
delegate), the latter modeled by an id for the closure. -/
structure AltTimeout where
  time_point : TimePoint
  timer_fn : Option Nat
deriving DecidableEq

/-- Alt::timeout_impl: copy the timer, reset it, and when its time
point is strictly below the current time_point_, store it together with
the closure. -/
def Alt.timeout_impl (now : Nat) (t : Timer) (fn : Nat) (s : AltTimeout) : AltTimeout :=
  if t.resetGet now < s.time_point then
    { time_point := t.resetGet now, timer_fn := some fn }
  else s

/-- Alt::timeout_if: run timeout_impl when the guard holds. -/
def Alt.timeout_if (guard : Bool) (now : Nat) (t : Timer) (fn : Nat)
    (s : AltTimeout) : AltTimeout :=
  if guard then Alt.timeout_impl now t fn s else s

/-- A sequence of timeout builder calls folded over the initial Alt
timeout state. -/
def Alt.registerTimeouts (now : Nat) (regs : List (Timer × Nat)) : AltTimeout :=
  regs.foldl (fun s r => Alt.timeout_impl now r.1 r.2 s) ⟨⊤, none⟩

/-!
Context trampoline (src/src/context.cpp) and the UnreachableError it
throws (include/proxc/exceptions.hpp).
-/

/-- UnreachableError: a std::system_error built from
std::errc::state_not_recoverable with what-string unreachable. -/
structure UnreachableError where
  code : String
  what : String
deriving DecidableEq

/-- Context::trampoline_: run the entry closure; the closure is modeled
as returning some () when it runs to completion and none when it never
returns (the fiber terminated through the scheduler and control never
comes back). If the closure returns, the trampoline throws
UnreachableError; it has no normal return (the value type is Empty),
and the thrown error propagates out of the fiber's stack to the hosting
thread. -/
def Context.trampoline (entry_fn : Unit → Option Unit) :
    Option (Except UnreachableError Empty) :=
  match entry_fn () with
  | none => none
  | some _ => some (Except.error ⟨"state_not_recoverable", "unreachable"⟩)

/-!
Theorems.
-/

/-- C8: for either channel handle (Tx or Rx), calling close() a second
time on the same handle is a no-op: the channel's closed state and the
handle are left exactly as the first close() left them (the second call
finds chan_ null and does nothing). -/
theorem close_idempotent (h : Heap) (tx : TxHandle) (rx : RxHandle) :
    TxHandle.close (TxHandle.close tx h).2 (TxHandle.close tx h).1 = TxHandle.close tx h
  ∧ RxHandle.close (RxHandle.close rx h).2 (RxHandle.close rx h).1 = RxHandle.close rx h := by
  constructor
  · obtain ⟨_ | i⟩ := tx <;> rfl
  · obtain ⟨_ | i⟩ := rx <;> rfl

/-- C2 counterexample: on a concrete open channel, after close() on the
Tx (resp. Rx) handle, send, recv and is_closed on that same handle do
not return Closed; they dereference the null chan_ pointer (undefined
behaviour, the none result). -/
theorem close_then_ops_counterexample :
    (TxHandle.close ⟨some 0⟩ [⟨false, SlotState.slotNone⟩]).2.send
        (TxHandle.close ⟨some 0⟩ [⟨false, SlotState.slotNone⟩]).1 false = none
  ∧ (TxHandle.close ⟨some 0⟩ [⟨false, SlotState.slotNone⟩]).2.send
        (TxHandle.close ⟨some 0⟩ [⟨false, SlotState.slotNone⟩]).1 false
      ≠ some OpResult.Closed
  ∧ (TxHandle.close ⟨some 0⟩ [⟨false, SlotState.slotNone⟩]).2.is_closed
        (TxHandle.close ⟨some 0⟩ [⟨false, SlotState.slotNone⟩]).1 = none
  ∧ (RxHandle.close ⟨some 0⟩ [⟨false, SlotState.slotNone⟩]).2.recv
        (RxHandle.close ⟨some 0⟩ [⟨false, SlotState.slotNone⟩]).1 false = none
  ∧ (RxHandle.close ⟨some 0⟩ [⟨false, SlotState.slotNone⟩]).2.recv
        (RxHandle.close ⟨some 0⟩ [⟨false, SlotState.slotNone⟩]).1 false
      ≠ some OpResult.Closed
  ∧ (RxHandle.close ⟨some 0⟩ [⟨false, SlotState.slotNone⟩]).2.is_closed
        (RxHandle.close ⟨some 0⟩ [⟨false, SlotState.slotNone⟩]).1 = none := by
  refine ⟨rfl, by decide, rfl, rfl, by decide, rfl⟩

/-- C2 amended: after close() on a Tx or Rx handle the handle's channel
pointer chan_ is null, and every subsequent send, recv or is_closed on
that same handle dereferences the null pointer - undefined behaviour
(none) - rather than returning Closed. -/
theorem close_then_ops_amended (h : Heap) (tx : TxHandle) (rx : RxHandle) (w : Bool) :
    (TxHandle.close tx h).2.send (TxHandle.close tx h).1 w = none
  ∧ (TxHandle.close tx h).2.is_closed (TxHandle.close tx h).1 = none
  ∧ (RxHandle.close rx h).2.recv (RxHandle.close rx h).1 w = none
  ∧ (RxHandle.close rx h).2.is_closed (RxHandle.close rx h).1 = none := by
  obtain ⟨_ | i⟩ := tx <;> obtain ⟨_ | j⟩ := rx <;> exact ⟨rfl, rfl, rfl, rfl⟩

/-- C9: if a fiber's entry closure runs to completion, the trampoline
raises the fatal UnreachableError (state_not_recoverable, what-string
unreachable), and control never continues normally past the entry
closure (the trampoline has no ok result). -/
theorem trampoline_unreachable (f : Unit → Option Unit) (hret : f () = some ()) :
    Context.trampoline f
        = some (Except.error ⟨"state_not_recoverable", "unreachable"⟩)
  ∧ ∀ e : Empty, Context.trampoline f ≠ some (Except.ok e) := by
  refine ⟨?_, fun e => e.elim⟩
  simp [Context.trampoline, hret]

/-- Witness for trampoline_unreachable at the entry closure that
returns immediately. -/
theorem trampoline_unreachable_witness :
    (fun _ : Unit => some ()) () = some ()
  ∧ (Context.trampoline (fun _ => some ())
        = some (Except.error ⟨"state_not_recoverable", "unreachable"⟩)
     ∧ ∀ e : Empty, Context.trampoline (fun _ => some ()) ≠ some (Except.ok e)) :=
  ⟨rfl, trampoline_unreachable (fun _ => some ()) rfl⟩

/-- take_id returns none when every draw equals the caller's id. -/
theorem take_id_all_self (selfId : Nat) (draws : List Nat)
    (h : ∀ d ∈ draws, d = selfId) : WorkStealing.take_id selfId draws = none := by
  induction draws with
  | nil => rfl
  | cons d rest ih =>
    have hd := h d (by simp)
    simp only [WorkStealing.take_id, hd, if_pos rfl]
    exact ih fun x hx => h x (by simp [hx])

/-- C10: with a single worker (hardware_concurrency at most 1, so
num_cpus returns 1), WorkStealing::take_id never terminates: every draw
of its rejection loop lies in the range 0 to num_workers_ - 1, i.e.
equals 0, the caller's own id, and is rejected, for arbitrarily many
draws; consequently pick_next does not return when it reaches the steal
branch with the own deque and the local ready list both empty. -/
theorem take_id_single_worker_diverges (hc : Nat) (draws : List Nat)
    (victims : Nat → List Nat)
    (h1 : hc ≤ 1) (h2 : ∀ d ∈ draws, d < num_cpus hc) :
    num_cpus hc = 1
  ∧ WorkStealing.take_id 0 draws = none
  ∧ WorkStealing.pick_next 0 ⟨[], []⟩ victims draws = none := by
  have hn : num_cpus hc = 1 := by
    unfold num_cpus
    split <;> omega
  have htake : WorkStealing.take_id 0 draws = none := by
    refine take_id_all_self 0 draws fun d hd => ?_
    have := h2 d hd
    rw [hn] at this
    omega
  exact ⟨hn, htake, by simp [WorkStealing.pick_next, htake]⟩

/-- Witness for take_id_single_worker_diverges: hardware_concurrency 0,
three draws, all necessarily 0. -/
theorem take_id_single_worker_diverges_witness :
    (0 ≤ 1 ∧ ∀ d ∈ [0, 0, 0], d < num_cpus 0)
  ∧ (num_cpus 0 = 1
     ∧ WorkStealing.take_id 0 [0, 0, 0] = none
     ∧ WorkStealing.pick_next 0 ⟨[], []⟩ (fun _ => []) [0, 0, 0] = none) :=
  ⟨⟨by decide, by decide⟩,
    take_id_single_worker_diverges 0 [0, 0, 0] (fun _ => []) (by decide) (by decide)⟩

/-- take_id never returns the caller's own id. -/
theorem take_id_ne_self (selfId : Nat) (draws : List Nat) (v : Nat)
    (h : WorkStealing.take_id selfId draws = some v) : v ≠ selfId := by
  induction draws with
  | nil => exact absurd h (by simp [WorkStealing.take_id])
  | cons d rest ih =>
    by_cases hd : d = selfId
    · rw [WorkStealing.take_id, if_pos hd] at h
      exact ih h
    · rw [WorkStealing.take_id, if_neg hd] at h
      cases h
      exact hd

/-- C6: every call to WorkStealing::pick_next first pops the own deque
at the owner (LIFO, back) end, attaching the popped fiber; if the deque
is empty it pops the front of the local ready list (no attach); if that
is also empty it asks take_id for a random other worker - the victim is
never the caller itself - and steals from the front (FIFO) end of that
worker's deque, attaching the stolen fiber, when any, before
returning. -/
theorem pick_next_spec (selfId : Nat) (s : WSWorker) (victims : Nat → List Nat)
    (draws : List Nat) :
    (∀ c, s.deque.getLast? = some c →
      WorkStealing.pick_next selfId s victims draws
        = some ⟨some c, { s with deque := s.deque.dropLast }, [c]⟩)
  ∧ (s.deque = [] → ∀ r rest, s.ready_queue = r :: rest →
      WorkStealing.pick_next selfId s victims draws
        = some ⟨some r, { s with ready_queue := rest }, []⟩)
  ∧ (s.deque = [] → s.ready_queue = [] →
      ∀ vid, WorkStealing.take_id selfId draws = some vid →
        vid ≠ selfId
        ∧ WorkStealing.pick_next selfId s victims draws
            = some ⟨(victims vid).head?, s, ((victims vid).head?).toList⟩) := by
  refine ⟨?_, ?_, ?_⟩
  · intro c hc
    simp [WorkStealing.pick_next, hc]
  · intro hd r rest hr
    simp [WorkStealing.pick_next, hd, hr]
  · intro hd hr vid hv
    refine ⟨take_id_ne_self selfId draws vid hv, ?_⟩
    cases hhead : (victims vid).head? <;>
      simp [WorkStealing.pick_next, hd, hr, hv, hhead]

/-- Witness for pick_next_spec: the three branches exercised at
concrete worker states. -/
theorem pick_next_spec_witness :
    (([3, 4] : List Nat).getLast? = some 4
     ∧ WorkStealing.pick_next 0 ⟨[3, 4], [9]⟩ (fun _ => [7]) [1]
        = some ⟨some 4, ⟨[3], [9]⟩, [4]⟩)
  ∧ (([] : List Nat) = [] ∧ ([9, 8] : List Nat) = 9 :: [8]
     ∧ WorkStealing.pick_next 0 ⟨[], [9, 8]⟩ (fun _ => [7]) [1]
        = some ⟨some 9, ⟨[], [8]⟩, []⟩)
  ∧ (WorkStealing.take_id 0 [1] = some 1
     ∧ 1 ≠ 0
     ∧ WorkStealing.pick_next 0 ⟨[], []⟩ (fun _ => [7]) [1]
        = some ⟨some 7, ⟨[], []⟩, [7]⟩) := by
  refine ⟨⟨by decide, (pick_next_spec 0 ⟨[3, 4], [9]⟩ (fun _ => [7]) [1]).1 4 rfl⟩,
          ⟨rfl, rfl, (pick_next_spec 0 ⟨[], [9, 8]⟩ (fun _ => [7]) [1]).2.1 rfl 9 [8] rfl⟩,
          ⟨by decide, ?_, ?_⟩⟩
  · exact ((pick_next_spec 0 ⟨[], []⟩ (fun _ => [7]) [1]).2.2 rfl rfl 1 rfl).1
  · exact ((pick_next_spec 0 ⟨[], []⟩ (fun _ => [7]) [1]).2.2 rfl rfl 1 rfl).2

/-- C5: a timed wait whose deadline already lies in the past returns
immediately: Scheduler::sleep_until answers true (timed out) without
linking the caller into the sleep queue, and Rx::recv_until on an open
channel with no waiting sender returns Timeout with the sleep queue
untouched. -/
theorem past_deadline_timeout (now wakeNow : Nat) (tp : TimePoint)
    (self : SleepCtx) (queue : List SleepCtx) (h : Heap) (i : Nat)
    (rx : RxHandle) (c : ChanState) (w : Bool)
    (hpast : tp ≤ (now : TimePoint))
    (hrx : rx.chan = some i) (hc : h.get? i = some c)
    (hopen : c.closed = false) (hslot : c.slot = SlotState.slotNone) :
    Scheduler.sleep_until now wakeNow tp self queue = (true, queue)
  ∧ rx.recv_until h now wakeNow tp self queue w = some (OpResult.Timeout, queue) := by
  have hsleep : Scheduler.sleep_until now wakeNow tp self queue = (true, queue) := by
    rw [Scheduler.sleep_until, if_neg (not_lt.mpr hpast)]
  refine ⟨hsleep, ?_⟩
  have hc' : h[i]? = some c := by
    rw [← List.get?_eq_getElem?]
    exact hc
  simp [RxHandle.recv_until, ChannelImpl.recv_until, hrx, hc', hopen, hslot, hsleep]

/-- Witness for past_deadline_timeout: deadline 3 with the clock at 5,
an open channel with an empty slot. -/
theorem past_deadline_timeout_witness :
    (((3 : Nat) : TimePoint) ≤ ((5 : Nat) : TimePoint)
     ∧ (⟨some 0⟩ : RxHandle).chan = some 0
     ∧ ([⟨false, SlotState.slotNone⟩] : Heap).get? 0 = some ⟨false, SlotState.slotNone⟩
     ∧ (⟨false, SlotState.slotNone⟩ : ChanState).closed = false
     ∧ (⟨false, SlotState.slotNone⟩ : ChanState).slot = SlotState.slotNone)
  ∧ (Scheduler.sleep_until 5 6 ((3 : Nat) : TimePoint) ⟨0, CtxType.Work, ⊤, false, false⟩ []
        = (true, [])
     ∧ RxHandle.recv_until ⟨some 0⟩ [⟨false, SlotState.slotNone⟩] 5 6 ((3 : Nat) : TimePoint)
          ⟨0, CtxType.Work, ⊤, false, false⟩ [] false
        = some (OpResult.Timeout, [])) :=
  ⟨⟨by decide, rfl, rfl, rfl, rfl⟩,
    past_deadline_timeout 5 6 ((3 : Nat) : TimePoint) ⟨0, CtxType.Work, ⊤, false, false⟩ []
      [⟨false, SlotState.slotNone⟩] 0 ⟨some 0⟩ ⟨false, SlotState.slotNone⟩ false
      (by decide) rfl rfl rfl rfl⟩

/-- C4: one wakeup_sleep_ pass over a deadline-sorted sleep queue
leaves exactly the entries with a future deadline linked (in order),
removes every entry whose deadline is at or before now and resets its
deadline to TimePointT::max(), and schedules exactly those removed
entries whose alt_ pointer is null or whose alt_->try_timeout()
returned true. -/
theorem wakeup_sleep_spec (now : Nat) (q : List SleepCtx)
    (hs : List.Sorted (fun a b => a.time_point ≤ b.time_point) q) :
    (Scheduler.wakeup_sleep now q).remaining
        = q.filter (fun c => decide ((now : TimePoint) < c.time_point))
  ∧ (Scheduler.wakeup_sleep now q).processed
        = (q.filter (fun c => decide (c.time_point ≤ (now : TimePoint)))).map
            (fun c => { c with time_point := (⊤ : TimePoint) })
  ∧ (Scheduler.wakeup_sleep now q).scheduled
        = (Scheduler.wakeup_sleep now q).processed.filter
            (fun c => !c.hasAlt || c.tryTimeoutOk) := by
  induction q with
  | nil => exact ⟨rfl, rfl, rfl⟩
  | cons c rest ih =>
    rw [List.sorted_cons] at hs
    obtain ⟨hle, hrest⟩ := hs
    obtain ⟨ih1, ih2, ih3⟩ := ih hrest
    by_cases hnow : (now : TimePoint) < c.time_point
    · have hall : rest.filter (fun x => decide ((now : TimePoint) < x.time_point)) = rest :=
        List.filter_eq_self.mpr fun x hx =>
          decide_eq_true (lt_of_lt_of_le hnow (hle x hx))
      have hnil : (c :: rest).filter (fun x => decide (x.time_point ≤ (now : TimePoint))) = [] := by
        rw [List.filter_eq_nil_iff]
        intro x hx
        rcases List.mem_cons.mp hx with h | h
        · subst h
          simpa using not_le.mpr hnow
        · simpa using not_le.mpr (lt_of_lt_of_le hnow (hle x h))
      refine ⟨?_, ?_, ?_⟩
      · rw [Scheduler.wakeup_sleep, if_pos hnow]
        simp [List.filter_cons, hnow, hall]
      · rw [Scheduler.wakeup_sleep, if_pos hnow, hnil]
        rfl
      · rw [Scheduler.wakeup_sleep, if_pos hnow]
        rfl
    · have hc : c.time_point ≤ (now : TimePoint) := not_lt.mp hnow
      refine ⟨?_, ?_, ?_⟩
      · rw [Scheduler.wakeup_sleep, if_neg hnow]
        simp [List.filter_cons, hnow, ih1]
      · rw [Scheduler.wakeup_sleep, if_neg hnow]
        simp [List.filter_cons, hc, ih2]
      · rw [Scheduler.wakeup_sleep, if_neg hnow]
        show (if !c.hasAlt || c.tryTimeoutOk
                then { c with time_point := (⊤ : TimePoint) } :: (Scheduler.wakeup_sleep now rest).scheduled
                else (Scheduler.wakeup_sleep now rest).scheduled)
          = List.filter (fun x => !x.hasAlt || x.tryTimeoutOk)
              ({ c with time_point := (⊤ : TimePoint) } :: (Scheduler.wakeup_sleep now rest).processed)
        by_cases hp : (!c.hasAlt || c.tryTimeoutOk) = true
        · rw [if_pos hp]
          simp only [List.filter_cons]
          rw [if_pos hp, ih3]
        · rw [if_neg hp]
          simp only [List.filter_cons]
          rw [if_neg hp, ih3]

/-- Witness for wakeup_sleep_spec: a sorted three-entry queue, clock at
5: deadlines 2 (alt with failing try_timeout), 4 (no alt) and 9. -/
theorem wakeup_sleep_spec_witness :
    List.Sorted (fun a b : SleepCtx => a.time_point ≤ b.time_point)
      [⟨1, CtxType.Work, ((2 : Nat) : TimePoint), true, false⟩,
       ⟨2, CtxType.Work, ((4 : Nat) : TimePoint), false, false⟩,
       ⟨3, CtxType.Work, ((9 : Nat) : TimePoint), false, false⟩]
  ∧ ((Scheduler.wakeup_sleep 5
        [⟨1, CtxType.Work, ((2 : Nat) : TimePoint), true, false⟩,
         ⟨2, CtxType.Work, ((4 : Nat) : TimePoint), false, false⟩,
         ⟨3, CtxType.Work, ((9 : Nat) : TimePoint), false, false⟩]).remaining
      = List.filter (fun c => decide (((5 : Nat) : TimePoint) < c.time_point))
          [⟨1, CtxType.Work, ((2 : Nat) : TimePoint), true, false⟩,
           ⟨2, CtxType.Work, ((4 : Nat) : TimePoint), false, false⟩,
           ⟨3, CtxType.Work, ((9 : Nat) : TimePoint), false, false⟩]
    ∧ (Scheduler.wakeup_sleep 5
        [⟨1, CtxType.Work, ((2 : Nat) : TimePoint), true, false⟩,
         ⟨2, CtxType.Work, ((4 : Nat) : TimePoint), false, false⟩,
         ⟨3, CtxType.Work, ((9 : Nat) : TimePoint), false, false⟩]).processed
      = List.map (fun c : SleepCtx => { c with time_point := (⊤ : TimePoint) })
          (List.filter (fun c : SleepCtx => decide (c.time_point ≤ ((5 : Nat) : TimePoint)))
            [⟨1, CtxType.Work, ((2 : Nat) : TimePoint), true, false⟩,
             ⟨2, CtxType.Work, ((4 : Nat) : TimePoint), false, false⟩,
             ⟨3, CtxType.Work, ((9 : Nat) : TimePoint), false, false⟩])
    ∧ (Scheduler.wakeup_sleep 5
        [⟨1, CtxType.Work, ((2 : Nat) : TimePoint), true, false⟩,
         ⟨2, CtxType.Work, ((4 : Nat) : TimePoint), false, false⟩,
         ⟨3, CtxType.Work, ((9 : Nat) : TimePoint), false, false⟩]).scheduled
      = List.filter (fun c => !c.hasAlt || c.tryTimeoutOk)
          (Scheduler.wakeup_sleep 5
            [⟨1, CtxType.Work, ((2 : Nat) : TimePoint), true, false⟩,
             ⟨2, CtxType.Work, ((4 : Nat) : TimePoint), false, false⟩,
             ⟨3, CtxType.Work, ((9 : Nat) : TimePoint), false, false⟩]).processed) :=
  ⟨by decide,
    wakeup_sleep_spec 5
      [⟨1, CtxType.Work, ((2 : Nat) : TimePoint), true, false⟩,
       ⟨2, CtxType.Work, ((4 : Nat) : TimePoint), false, false⟩,
       ⟨3, CtxType.Work, ((9 : Nat) : TimePoint), false, false⟩] (by decide)⟩

/-- Looking up a key just written into the audit map yields the written
entry. -/
theorem auditFind_auditSet_self (m : List (Nat × ChoiceAudit)) (k : Nat)
    (v : ChoiceAudit) : auditFind (auditSet m k v) k = some v := by
  induction m with
  | nil => simp [auditSet, auditFind]
  | cons p rest ih =>
    by_cases h : p.1 = k
    · simp [auditSet, auditFind, h]
    · simp [auditSet, auditFind, h, ih]

/-- C3: on a channel id not seen before by this Alt, registering a send
and then a recv (or a recv and then a send) marks the id's audit entry
Clash, does not append the later conflicting choice to choices_, and
excludes all choices on that id from selection; registering a second
choice of the same direction as the first appends it under the existing
audit entry and to choices_. -/
theorem alt_clash_audit (s : AltBuild) (chId : Nat)
    (hfresh : auditFind s.ch_audit chId = none) :
    Alt.auditStateOf (Alt.recv_impl false chId (Alt.send_impl false chId s)) chId
        = some AuditState.Clash
  ∧ (Alt.recv_impl false chId (Alt.send_impl false chId s)).choices
        = (Alt.send_impl false chId s).choices
  ∧ (∀ c ∈ Alt.enterSet (Alt.recv_impl false chId (Alt.send_impl false chId s)),
        c.chId ≠ chId)
  ∧ Alt.auditStateOf (Alt.send_impl false chId (Alt.recv_impl false chId s)) chId
        = some AuditState.Clash
  ∧ (Alt.send_impl false chId (Alt.recv_impl false chId s)).choices
        = (Alt.recv_impl false chId s).choices
  ∧ auditFind (Alt.send_impl false chId (Alt.send_impl false chId s)).ch_audit chId
        = some ⟨AuditState.Tx, [s.nextId, s.nextId + 1]⟩
  ∧ (Alt.send_impl false chId (Alt.send_impl false chId s)).choices
        = s.choices ++ [⟨s.nextId, true, chId⟩, ⟨s.nextId + 1, true, chId⟩] := by
  have hsend : Alt.send_impl false chId s
      = { ch_audit := auditSet s.ch_audit chId ⟨AuditState.Tx, [s.nextId]⟩,
          choices := s.choices ++ [⟨s.nextId, true, chId⟩],
          nextId := s.nextId + 1 } := by
    rw [Alt.send_impl]
    simp [hfresh]
  have hrecv : Alt.recv_impl false chId s
      = { ch_audit := auditSet s.ch_audit chId ⟨AuditState.Rx, [s.nextId]⟩,
          choices := s.choices ++ [⟨s.nextId, false, chId⟩],
          nextId := s.nextId + 1 } := by
    rw [Alt.recv_impl]
    simp [hfresh]
  have hfind1 : auditFind (Alt.send_impl false chId s).ch_audit chId
      = some ⟨AuditState.Tx, [s.nextId]⟩ := by
    rw [hsend]
    exact auditFind_auditSet_self _ _ _
  have hfind1r : auditFind (Alt.recv_impl false chId s).ch_audit chId
      = some ⟨AuditState.Rx, [s.nextId]⟩ := by
    rw [hrecv]
    exact auditFind_auditSet_self _ _ _
  have hclash : Alt.recv_impl false chId (Alt.send_impl false chId s)
      = { Alt.send_impl false chId s with
          ch_audit := auditSet (Alt.send_impl false chId s).ch_audit chId
            ⟨AuditState.Clash, [s.nextId]⟩ } := by
    rw [Alt.recv_impl]
    simp [hfind1]
  have hclash2 : Alt.send_impl false chId (Alt.recv_impl false chId s)
      = { Alt.recv_impl false chId s with
          ch_audit := auditSet (Alt.recv_impl false chId s).ch_audit chId
            ⟨AuditState.Clash, [s.nextId]⟩ } := by
    rw [Alt.send_impl]
    simp [hfind1r]
  have hstate : Alt.auditStateOf (Alt.recv_impl false chId (Alt.send_impl false chId s)) chId
      = some AuditState.Clash := by
    rw [hclash, Alt.auditStateOf]
    simp [auditFind_auditSet_self]
  refine ⟨hstate, by rw [hclash], ?_, ?_, by rw [hclash2], ?_, ?_⟩
  · intro c hc
    have hmem := List.of_mem_filter hc
    intro heq
    rw [decide_eq_true_eq, heq] at hmem
    exact hmem hstate
  · rw [hclash2, Alt.auditStateOf]
    simp [auditFind_auditSet_self]
  · rw [Alt.send_impl]
    simp only [hfind1, Bool.false_eq_true, if_false]
    simp [hsend, auditFind_auditSet_self]
  · rw [Alt.send_impl]
    simp only [hfind1, Bool.false_eq_true, if_false]
    simp [hsend]

/-- Witness for alt_clash_audit at the empty Alt builder state and
channel id 0. -/
theorem alt_clash_audit_witness :
    auditFind (⟨[], [], 0⟩ : AltBuild).ch_audit 0 = none
  ∧ (Alt.auditStateOf (Alt.recv_impl false 0 (Alt.send_impl false 0 ⟨[], [], 0⟩)) 0
        = some AuditState.Clash
     ∧ (Alt.recv_impl false 0 (Alt.send_impl false 0 ⟨[], [], 0⟩)).choices
        = (Alt.send_impl false 0 ⟨[], [], 0⟩).choices
     ∧ (∀ c ∈ Alt.enterSet (Alt.recv_impl false 0 (Alt.send_impl false 0 ⟨[], [], 0⟩)),
        c.chId ≠ 0)
     ∧ Alt.auditStateOf (Alt.send_impl false 0 (Alt.recv_impl false 0 ⟨[], [], 0⟩)) 0
        = some AuditState.Clash
     ∧ (Alt.send_impl false 0 (Alt.recv_impl false 0 ⟨[], [], 0⟩)).choices
        = (Alt.recv_impl false 0 ⟨[], [], 0⟩).choices
     ∧ auditFind (Alt.send_impl false 0 (Alt.send_impl false 0 ⟨[], [], 0⟩)).ch_audit 0
        = some ⟨AuditState.Tx, [0, 0 + 1]⟩
     ∧ (Alt.send_impl false 0 (Alt.send_impl false 0 ⟨[], [], 0⟩)).choices
        = ([] : List ChoiceRec) ++ [⟨0, true, 0⟩, ⟨0 + 1, true, 0⟩]) :=
  ⟨rfl, alt_clash_audit ⟨[], [], 0⟩ 0 rfl⟩

/-- The time point written by timeout_impl is the minimum of the reset
timer's time point and the previous deadline. -/
theorem timeout_impl_time_point (now : Nat) (t : Timer) (fn : Nat) (s : AltTimeout) :
    (Alt.timeout_impl now t fn s).time_point = min (t.resetGet now) s.time_point := by
  rw [Alt.timeout_impl]
  rcases lt_or_ge (t.resetGet now) s.time_point with hlt | hge
  · rw [if_pos hlt, min_eq_left (le_of_lt hlt)]
  · rw [if_neg (not_lt.mpr hge), min_eq_right hge]

/-- Folding min over a list commutes with taking min at the start. -/
theorem foldr_min_init (v i : TimePoint) (l : List TimePoint) :
    l.foldr min (min v i) = min v (l.foldr min i) := by
  induction l with
  | nil => rfl
  | cons a l ih => simp [List.foldr_cons, ih, min_left_comm]

/-- The deadline after a sequence of timeout_impl calls is the min-fold
of the reset timer time points over the starting deadline. -/
theorem registerTimeouts_time_point (now : Nat) (regs : List (Timer × Nat))
    (s : AltTimeout) :
    (regs.foldl (fun s r => Alt.timeout_impl now r.1 r.2 s) s).time_point
      = (regs.map (fun r => r.1.resetGet now)).foldr min s.time_point := by
  induction regs generalizing s with
  | nil => rfl
  | cons r rest ih =>
    rw [List.foldl_cons, ih, List.map_cons, List.foldr_cons,
        ← foldr_min_init, timeout_impl_time_point]

/-- The min-fold over the top element is invariant under permutation. -/
theorem foldr_min_perm {l1 l2 : List TimePoint} (h : l1.Perm l2) :
    l1.foldr min ⊤ = l2.foldr min ⊤ := by
  induction h with
  | nil => rfl
  | cons a _ ih => simp [List.foldr_cons, ih]
  | swap a b l => simp [List.foldr_cons, min_left_comm]
  | trans _ _ ih1 ih2 => rw [ih1, ih2]

/-- A timeout fold either leaves the state untouched or stores the time
point and closure of one of the registered timers. -/
theorem registerTimeouts_fn_aux (now : Nat) (regs : List (Timer × Nat))
    (s : AltTimeout) :
    regs.foldl (fun s r => Alt.timeout_impl now r.1 r.2 s) s = s
  ∨ ∃ r ∈ regs,
      r.1.resetGet now
          = (regs.foldl (fun s r => Alt.timeout_impl now r.1 r.2 s) s).time_point
      ∧ (regs.foldl (fun s r => Alt.timeout_impl now r.1 r.2 s) s).timer_fn
          = some r.2 := by
  induction regs generalizing s with
  | nil => exact Or.inl rfl
  | cons r rest ih =>
    rw [List.foldl_cons]
    rcases ih (Alt.timeout_impl now r.1 r.2 s) with heq | ⟨r2, hmem, htp, hfn⟩
    · rw [heq]
      rw [Alt.timeout_impl]
      by_cases hlt : r.1.resetGet now < s.time_point
      · refine Or.inr ⟨r, List.mem_cons_self r rest, ?_, ?_⟩ <;> rw [if_pos hlt]
      · rw [if_neg hlt]
        exact Or.inl rfl
    · exact Or.inr ⟨r2, List.mem_cons_of_mem r hmem, htp, hfn⟩

/-- C7: the deadline resulting from a sequence of timeout / timeout_if
builder calls equals the minimum over all registered timers of their
reset time points, is invariant under the order of registration, and is
TimePointT::max() (the top element) when no timeout was registered;
whenever the final deadline is below the maximum, the stored timer
closure belongs to a registered timer attaining that minimum; a
timeout_if with a true guard acts exactly as timeout. -/
theorem alt_timeout_min_deadline (now : Nat) (regs regs2 : List (Timer × Nat))
    (t : Timer) (fn : Nat) (s : AltTimeout) (hperm : regs.Perm regs2) :
    (Alt.registerTimeouts now regs).time_point
        = (regs.map (fun r => r.1.resetGet now)).foldr min ⊤
  ∧ (Alt.registerTimeouts now regs).time_point
        = (Alt.registerTimeouts now regs2).time_point
  ∧ (Alt.registerTimeouts now []).time_point = ⊤
  ∧ ((Alt.registerTimeouts now regs).time_point < ⊤ →
      ∃ r ∈ regs,
        r.1.resetGet now = (Alt.registerTimeouts now regs).time_point
        ∧ (Alt.registerTimeouts now regs).timer_fn = some r.2)
  ∧ Alt.timeout_if true now t fn s = Alt.timeout_impl now t fn s := by
  refine ⟨registerTimeouts_time_point now regs ⟨⊤, none⟩, ?_, rfl, ?_, rfl⟩
  · rw [Alt.registerTimeouts, Alt.registerTimeouts,
        registerTimeouts_time_point, registerTimeouts_time_point]
    exact foldr_min_perm (hperm.map (fun r => r.1.resetGet now))
  · intro hlt
    rcases registerTimeouts_fn_aux now regs ⟨⊤, none⟩ with heq | hex
    · rw [Alt.registerTimeouts, heq] at hlt
      exact absurd hlt (lt_irrefl ⊤)
    · exact hex

/-- Witness for alt_timeout_min_deadline: an Egg timer of duration 7
and a Date timer at 3, registered in both orders with the clock at 2;
the minimum is the Date's time point 3, whose closure is stored. -/
theorem alt_timeout_min_deadline_witness :
    ([(Timer.Egg 7, 1), (Timer.Date ((3 : Nat) : TimePoint), 2)].Perm
        [(Timer.Date ((3 : Nat) : TimePoint), 2), (Timer.Egg 7, 1)])
  ∧ ((Alt.registerTimeouts 2 [(Timer.Egg 7, 1), (Timer.Date ((3 : Nat) : TimePoint), 2)]).time_point
        = (([(Timer.Egg 7, 1), (Timer.Date ((3 : Nat) : TimePoint), 2)].map
            (fun r => r.1.resetGet 2)).foldr min ⊤)
     ∧ (Alt.registerTimeouts 2 [(Timer.Egg 7, 1), (Timer.Date ((3 : Nat) : TimePoint), 2)]).time_point
        = (Alt.registerTimeouts 2 [(Timer.Date ((3 : Nat) : TimePoint), 2), (Timer.Egg 7, 1)]).time_point
     ∧ (Alt.registerTimeouts 2 []).time_point = ⊤
     ∧ ((Alt.registerTimeouts 2 [(Timer.Egg 7, 1), (Timer.Date ((3 : Nat) : TimePoint), 2)]).time_point < ⊤ →
        ∃ r ∈ [(Timer.Egg 7, 1), (Timer.Date ((3 : Nat) : TimePoint), 2)],
          r.1.resetGet 2
              = (Alt.registerTimeouts 2 [(Timer.Egg 7, 1), (Timer.Date ((3 : Nat) : TimePoint), 2)]).time_point
          ∧ (Alt.registerTimeouts 2 [(Timer.Egg 7, 1), (Timer.Date ((3 : Nat) : TimePoint), 2)]).timer_fn
              = some r.2)
     ∧ Alt.timeout_if true 2 (Timer.Egg 7) 1 ⟨⊤, none⟩ = Alt.timeout_impl 2 (Timer.Egg 7) 1 ⟨⊤, none⟩) :=
  ⟨List.Perm.swap _ _ _,
    alt_timeout_min_deadline 2
      [(Timer.Egg 7, 1), (Timer.Date ((3 : Nat) : TimePoint), 2)]
      [(Timer.Date ((3 : Nat) : TimePoint), 2), (Timer.Egg 7, 1)]
      (Timer.Egg 7) 1 ⟨⊤, none⟩ (List.Perm.swap _ _ _)⟩

/-- schedule_local_ does not touch the phase trace. -/
theorem schedule_local_trace (c : RCtx) (s : RunState) :
    (Scheduler.schedule_local c s).trace = s.trace := by
  rw [Scheduler.schedule_local, WorkStealing.enqueue]
  by_cases h : c.type = CtxType.Work
  · rw [if_pos h]
  · rw [if_neg h]

/-- Folding schedule_local_ over any list does not touch the trace. -/
theorem foldl_schedule_local_trace {α : Type} (g : α → RCtx) (l : List α)
    (s : RunState) :
    (l.foldl (fun st c => Scheduler.schedule_local (g c) st) s).trace = s.trace := by
  induction l generalizing s with
  | nil => rfl
  | cons c l ih => rw [List.foldl_cons, ih, schedule_local_trace]

/-- pick_next does not touch the phase trace. -/
theorem pick_next_run_trace (stealResult : Option RCtx) (s : RunState) :
    (WorkStealing.pick_next_run stealResult s).2.trace = s.trace := by
  rw [WorkStealing.pick_next_run.eq_def]
  cases s.deque.getLast? with
  | some c => rfl
  | none =>
    cases hr : s.ready_queue with
    | cons r rest => rfl
    | nil =>
      cases stealResult with
      | some c => rfl
      | none => rfl

/-- C1 counterexample: at a concrete scheduler state (exit flag clear,
one ready fiber), the iteration's phase trace is reap terminated, then
drain remote, then wake sleepers, then pick-and-resume; it is not the
spec's order with the remote drain before the terminated reap. -/
theorem run_loop_order_counterexample :
    (Scheduler.run_iteration none 0
        ⟨false, [], [], [], [], [⟨1, CtxType.Main⟩], [], []⟩).map (fun r => r.1.trace)
      = some [Phase.cleanupTerminated, Phase.transitionRemote,
              Phase.wakeupSleep, Phase.pickNextResume]
  ∧ (Scheduler.run_iteration none 0
        ⟨false, [], [], [], [], [⟨1, CtxType.Main⟩], [], []⟩).map (fun r => r.1.trace)
      ≠ some [Phase.transitionRemote, Phase.cleanupTerminated,
              Phase.wakeupSleep, Phase.pickNextResume] := by
  constructor
  · rfl
  · decide

/-- C1 amended: every non-exiting iteration of Scheduler::run_ performs
its phases in the order: first reap the terminated list, then drain the
remote inbox into the local ready set, then wake expired sleepers, then
ask the policy for the next fiber and resume it (parking in
suspend_until when the policy has none). -/
theorem run_loop_phase_order (stealResult : Option RCtx) (now : Nat) (s : RunState)
    (h : ¬ (s.exitFlag = true ∧ s.work_queue = [])) :
    ∃ r, Scheduler.run_iteration stealResult now s = some r
      ∧ r.1.trace = s.trace
          ++ [Phase.cleanupTerminated, Phase.transitionRemote, Phase.wakeupSleep,
              if r.2.isSome then Phase.pickNextResume else Phase.suspendUntil] := by
  rw [Scheduler.run_iteration, if_neg h]
  have htrace :
      (Scheduler.wakeup_sleep_run now
        (Scheduler.transition_remote (Scheduler.cleanup_terminated s))).trace
      = s.trace ++ [Phase.cleanupTerminated, Phase.transitionRemote, Phase.wakeupSleep] := by
    rw [Scheduler.wakeup_sleep_run]
    rw [foldl_schedule_local_trace (fun c : SleepCtx => (⟨c.cid, c.type⟩ : RCtx))]
    show (Scheduler.transition_remote (Scheduler.cleanup_terminated s)).trace
        ++ [Phase.wakeupSleep] = _
    rw [Scheduler.transition_remote]
    rw [foldl_schedule_local_trace (fun c : RCtx => c)]
    show (Scheduler.cleanup_terminated s).trace
        ++ [Phase.transitionRemote] ++ [Phase.wakeupSleep] = _
    rw [Scheduler.cleanup_terminated]
    simp
  cases hp : WorkStealing.pick_next_run stealResult
      (Scheduler.wakeup_sleep_run now
        (Scheduler.transition_remote (Scheduler.cleanup_terminated s))) with
  | mk o s4 =>
    have hs4 : s4.trace
        = s.trace ++ [Phase.cleanupTerminated, Phase.transitionRemote, Phase.wakeupSleep] := by
      have := pick_next_run_trace stealResult
        (Scheduler.wakeup_sleep_run now
          (Scheduler.transition_remote (Scheduler.cleanup_terminated s)))
      rw [hp] at this
      rw [this, htrace]
    cases o with
    | some c =>
      refine ⟨_, rfl, ?_⟩
      show s4.trace ++ [Phase.pickNextResume] = _
      rw [hs4]
      simp
    | none =>
      refine ⟨_, rfl, ?_⟩
      show s4.trace ++ [Phase.suspendUntil] = _
      rw [hs4]
      simp

/-- Witness for run_loop_phase_order at a concrete non-exiting state
with one ready fiber. -/
theorem run_loop_phase_order_witness :
    (¬ ((⟨false, [], [], [], [], [⟨1, CtxType.Main⟩], [], []⟩ : RunState).exitFlag = true
        ∧ (⟨false, [], [], [], [], [⟨1, CtxType.Main⟩], [], []⟩ : RunState).work_queue = []))
  ∧ ∃ r, Scheduler.run_iteration none 0
        ⟨false, [], [], [], [], [⟨1, CtxType.Main⟩], [], []⟩ = some r
      ∧ r.1.trace = (⟨false, [], [], [], [], [⟨1, CtxType.Main⟩], [], []⟩ : RunState).trace
          ++ [Phase.cleanupTerminated, Phase.transitionRemote, Phase.wakeupSleep,
              if r.2.isSome then Phase.pickNextResume else Phase.suspendUntil] :=
  ⟨by decide,
    run_loop_phase_order none 0 ⟨false, [], [], [], [], [⟨1, CtxType.Main⟩], [], []⟩ (by decide)⟩

end Proxc
